import Mathlib

set_option maxRecDepth 40000

/-!
# Supply-chain helper scripts: shallow embedding and verification

This file embeds the two Node.js helper scripts of the repository

* `run-trusted-scripts.js` (selective script execution for trusted packages), and
* `verify-packages.js` (package integrity verification, five checks),

as executable Lean definitions, and proves the behavioural properties stated in
the specification about them.

Modelling conventions:

* JS strings are Lean `String`s; the string primitives used by the scripts
  (`startsWith`, `includes`, `replace(/^node_modules\//, '')`, `split('=')[0]`)
  are defined here on the underlying character lists so that every definition
  evaluates inside the kernel.
* A JSON file input is `Option (Except Unit α)`: `none` = file absent,
  `some (.error ())` = present but JSON.parse throws, `some (.ok a)` = parsed.
* A lockfile's `packages` mapping is a `List (String × Option String)` of
  (key, optional integrity digest) entries in object order.
* External commands (rebuild, audit, version query) are modelled as oracle
  inputs: a rebuild outcome function `String → Bool`, an `AuditExec` value,
  a `SigExec` value.
* The floating-point expression `((withHash / total) * 100).toFixed(1)` is
  modelled in exact arithmetic as the coverage in tenths of a percent rounded
  half-up (`rateTenths`).  JS behaviour at an exact half-tie (coverage equal to
  94.95% precisely) depends on binary floating point and is not asserted by any
  theorem below; all inputs used in the theorems are tie-free.
-/

namespace SupplyChain

/-! ## String primitives (character-list based) -/

/-- `s.startsWith pre` of JS, via the character data of the strings. -/
def strStartsWith (s pre : String) : Bool :=
  pre.data.isPrefixOf s.data

/-- Occurrence of `pat` as a contiguous substring of `hay`
(JS `hay.includes(pat)`), on character lists. -/
def charsInfixOf (pat : List Char) : List Char → Bool
  | [] => pat.isEmpty
  | a :: t => pat.isPrefixOf (a :: t) || charsInfixOf pat t

/-- JS `hay.includes(pat)`. -/
def strContains (hay pat : String) : Bool :=
  charsInfixOf pat.data hay.data

/-! ## Shared data model: the trust-policy document (trusted-packages.json) -/

/-- One entry of the `packages` array of trusted-packages.json.
`reason` is optional in the JSON (its absence only triggers warnings). -/
structure TrustEntry where
  name : String
  reason : Option String
deriving Repr, DecidableEq

/-- The parsed trusted-packages.json document: a `packages` array (possibly
absent, `config.packages || []`) and an optional `lastReviewed` date, modelled
as a day number. -/
structure TrustPolicyDoc where
  packagesField : Option (List TrustEntry)
  lastReviewed : Option Int
deriving Repr

/-! ## Script runner (run-trusted-scripts.js) -/

/-- `loadTrustedPackages`: `config.packages || []` (the fatal exit-1 path for an
absent file is handled in `scriptRunnerMain`). -/
def loadTrustedPackages (config : TrustPolicyDoc) : List TrustEntry :=
  config.packagesField.getD []

/-- `getInstalledPackages`: `Object.keys(lock.packages || {}).filter(k => k !== '')`;
an absent lockfile yields the empty set (with only a warning printed). -/
def getInstalledPackages
    (lockPackages : Option (List (String × Option String))) : List String :=
  match lockPackages with
  | none => []
  | some pkgs => (pkgs.map Prod.fst).filter (fun k => k ≠ "")

/-- `pkgPath.replace(/^node_modules\//, '')`: removes one leading
`node_modules/` when present. -/
def stripNodeModules (pkgPath : String) : String :=
  if strStartsWith pkgPath "node_modules/" then
    String.mk (pkgPath.data.drop "node_modules/".data.length)
  else pkgPath

/-- `matchesTrusted(pkgPath, trustedList)`:
`trustedList.some(t => pkgName === t.name || pkgName.startsWith(t.name + '/'))`
where `pkgName` is the path with the `node_modules/` lead removed. -/
def matchesTrusted (pkgPath : String) (trustedList : List TrustEntry) : Bool :=
  let pkgName := stripNodeModules pkgPath
  trustedList.any fun t =>
    pkgName == t.name || strStartsWith pkgName (t.name ++ "/")

/-- The `toRebuild` array built by the main loop: matching installed package
paths, in lockfile order, with the `node_modules/` lead removed. -/
def toRebuild (trusted : List TrustEntry) (installed : List String) : List String :=
  (installed.filter (fun p => matchesTrusted p trusted)).map stripNodeModules

/-- Observable outcome of a script-runner run: the `npm rebuild <pkg>`
invocations in order, and the process exit code. -/
structure RunOutcome where
  invoked : List String
  exitCode : Nat
deriving Repr, DecidableEq

/-- The rebuild loop: invoke `npm rebuild` for each listed package in order;
on the first failing invocation (`rebuildOk p = false`, i.e. non-zero exit or
timeout of `execSync`) stop and exit 1; exit 0 after the loop otherwise. -/
def runRebuilds (rebuildOk : String → Bool) : List String → RunOutcome
  | [] => ⟨[], 0⟩
  | pkg :: rest =>
    if rebuildOk pkg then
      let r := runRebuilds rebuildOk rest
      ⟨pkg :: r.invoked, r.exitCode⟩
    else
      ⟨[pkg], 1⟩

/-- `main()` of run-trusted-scripts.js.  `policy = none` models an absent
trusted-packages.json: `loadTrustedPackages` exits 1 before anything is
invoked.  An empty `toRebuild` list exits 0 without invoking anything. -/
def scriptRunnerMain (policy : Option TrustPolicyDoc)
    (lockPackages : Option (List (String × Option String)))
    (rebuildOk : String → Bool) : RunOutcome :=
  match policy with
  | none => ⟨[], 1⟩
  | some config =>
    let trusted := loadTrustedPackages config
    let installed := getInstalledPackages lockPackages
    runRebuilds rebuildOk (toRebuild trusted installed)

/-! ## Verifier (verify-packages.js), check 1: integrity hashes -/

/-- Non-root lockfile entries (the `if (name === '') continue` filter). -/
def nonRootEntries
    (pkgs : List (String × Option String)) : List (String × Option String) :=
  pkgs.filter (fun e => e.1 ≠ "")

/-- `total` counter of `verifyIntegrity`. -/
def totalCount (pkgs : List (String × Option String)) : Nat :=
  (nonRootEntries pkgs).length

/-- `withHash` counter of `verifyIntegrity` (`if (pkg.integrity)`). -/
def withHashCount (pkgs : List (String × Option String)) : Nat :=
  ((nonRootEntries pkgs).filter (fun e => e.2.isSome)).length

/-- `sha512` counter of `verifyIntegrity`
(`pkg.integrity.startsWith('sha512-')`). -/
def sha512Count (pkgs : List (String × Option String)) : Nat :=
  ((nonRootEntries pkgs).filter (fun e =>
    match e.2 with
    | some h => strStartsWith h "sha512-"
    | none => false)).length

/-- Exact model of `((withHash / total) * 100).toFixed(1)` followed by the
numeric coercion in `rate >= 95`: the coverage in tenths of a percent,
rounded half-up.  (`rate >= 95` then becomes `rateTenths ≥ 950`.) -/
def rateTenths (withHash total : Nat) : Nat :=
  (2000 * withHash + total) / (2 * total)

/-- `verifyIntegrity()`: fail on an absent or unparseable lockfile; otherwise
pass at full digest coverage, pass (with a warning) when the rounded coverage
reaches 95.0, fail below. -/
def verifyIntegrity
    (lockfile : Option (Except Unit (List (String × Option String)))) : Bool :=
  match lockfile with
  | none => false
  | some (.error _) => false
  | some (.ok pkgs) =>
    let total := totalCount pkgs
    let withHash := withHashCount pkgs
    if withHash = total then true
    else if rateTenths withHash total ≥ 950 then true
    else false

/-! ## Verifier check 2: security audit -/

/-- `result.metadata?.vulnerabilities || {}` severity counts; each field may be
absent (`v.critical || 0` defaulting). -/
structure VulnCounts where
  critical : Option Nat
  high : Option Nat
  moderate : Option Nat
  low : Option Nat
  info : Option Nat
deriving Repr, DecidableEq

/-- Outcome of `execSync('npm audit --json 2>/dev/null || true', ...)`:
the outer call may throw, else its output is JSON-parseable or not; in the
unparseable case the fallback `npm audit --audit-level=high` runs and its exit
status decides. -/
inductive AuditExec where
  | execError : AuditExec
  | parsed : VulnCounts → AuditExec
  | unparseable : Bool → AuditExec
deriving Repr, DecidableEq

/-- `runAudit()`: first component is the check's boolean; the second records
whether the `Moderate vulnerabilities found` warning is emitted (only on the
passing path). -/
def runAudit : AuditExec → Bool × Bool
  | .execError => (false, false)
  | .parsed v =>
    let critical := v.critical.getD 0
    let high := v.high.getD 0
    let moderate := v.moderate.getD 0
    if critical > 0 || high > 0 then (false, false)
    else if moderate > 0 then (true, true)
    else (true, false)
  | .unparseable fallbackOk => (fallbackOk, false)

/-! ## Verifier check 3: signature support -/

/-- Outcome of `npm --version` (major, minor) and of the optional
`npm audit signatures` attempt. -/
inductive SigExec where
  | versionError : SigExec
  | version : Nat → Nat → Bool → SigExec
deriving Repr, DecidableEq

/-- `verifySignatures()`: every path returns `true` (version comparison and
signature-invocation failures only print warnings). -/
def verifySignatures : SigExec → Bool
  | .versionError => true
  | .version major minor _sigOk =>
    if major > 8 || (major == 8 && minor ≥ 15) then true
    else true

/-! ## Verifier check 4: .npmrc configuration -/

/-- The `required` settings list of `verifyNpmrc`. -/
def requiredSettings : List String :=
  ["ignore-scripts=true", "audit-level", "package-lock=true", "strict-ssl=true"]

/-- The `recommended` settings list of `verifyNpmrc` (matched for log output
only; never contributes to the returned boolean). -/
def recommendedSettings : List String :=
  ["save-exact=true", "engine-strict=true", "prefer-offline=true", "optional=false"]

/-- `s.split('=')[0]`. -/
def settingKey (s : String) : String :=
  String.mk (s.data.takeWhile (fun c => c ≠ '='))

/-- `verifyNpmrc()`: an absent file passes (warning only); otherwise `allGood`
is the conjunction over the required settings of `content.includes(key)`.
The loop over `recommendedSettings` only prints and is omitted. -/
def verifyNpmrc (npmrc : Option String) : Bool :=
  match npmrc with
  | none => true
  | some content =>
    requiredSettings.all (fun s => strContains content (settingKey s))

/-! ## Verifier check 5: trusted-packages validation -/

/-- `verifyTrustedPackages()`; `now` is the current day number.  First
component is the check's boolean; the second records whether the stale-review
warning (`daysSince > 90`) is emitted.  Note the early `return true` on an
empty packages list happens before `lastReviewed` is inspected. -/
def verifyTrustedPackages (now : Int)
    (doc : Option (Except Unit TrustPolicyDoc)) : Bool × Bool :=
  match doc with
  | none => (true, false)
  | some (.error _) => (false, false)
  | some (.ok cfg) =>
    let pkgs := cfg.packagesField.getD []
    if pkgs.isEmpty then (true, false)
    else
      match cfg.lastReviewed with
      | none => (true, false)
      | some reviewed => (true, decide (now - reviewed > 90))

/-! ## Verifier main -/

/-- All file and command inputs of one verifier run. -/
structure VerifierInput where
  npmrc : Option String
  lockfile : Option (Except Unit (List (String × Option String)))
  audit : AuditExec
  sig : SigExec
  trustDoc : Option (Except Unit TrustPolicyDoc)
  now : Int

/-- The `results` record of `main()`. -/
structure VerifierResults where
  npmrc : Bool
  integrity : Bool
  audit : Bool
  signatures : Bool
  trusted : Bool
deriving Repr, DecidableEq

/-- The five checks, each evaluated on its own input slice. -/
def verifierChecks (inp : VerifierInput) : VerifierResults :=
  { npmrc := verifyNpmrc inp.npmrc
    integrity := verifyIntegrity inp.lockfile
    audit := (runAudit inp.audit).1
    signatures := verifySignatures inp.sig
    trusted := (verifyTrustedPackages inp.now inp.trustDoc).1 }

/-- `allPassed = Object.values(results).every(Boolean)`. -/
def allPassed (r : VerifierResults) : Bool :=
  r.npmrc && r.integrity && r.audit && r.signatures && r.trusted

/-- `main()` of verify-packages.js: exit code 0 iff every check passed. -/
def verifierMain (inp : VerifierInput) : Nat :=
  if allPassed (verifierChecks inp) then 0 else 1

/-! ## Helper lemmas -/

theorem string_data_append (a b : String) : (a ++ b).data = a.data ++ b.data := rfl

theorem isPrefixOf_iff (l₁ l₂ : List Char) : l₁.isPrefixOf l₂ = true ↔ l₁ <+: l₂ :=
  List.isPrefixOf_iff_prefix

theorem strStartsWith_iff_append (s pre : String) :
    strStartsWith s pre = true ↔ ∃ rest : String, s = pre ++ rest := by
  rw [strStartsWith, isPrefixOf_iff]
  constructor
  · rintro ⟨t, ht⟩
    exact ⟨String.mk t, String.ext ht.symm⟩
  · rintro ⟨rest, rfl⟩
    exact ⟨rest.data, (string_data_append pre rest).symm⟩

theorem charsInfixOf_iff (pat hay : List Char) :
    charsInfixOf pat hay = true ↔ pat <:+: hay := by
  induction hay with
  | nil =>
    simp [charsInfixOf, List.isEmpty_iff]
  | cons a t ih =>
    rw [charsInfixOf, Bool.or_eq_true, isPrefixOf_iff, ih, List.infix_cons_iff]

theorem strContains_iff (hay pat : String) :
    strContains hay pat = true ↔ pat.data <:+: hay.data :=
  charsInfixOf_iff pat.data hay.data

theorem runRebuilds_invoked_eq (rebuildOk : String → Bool) (l : List String) :
    (runRebuilds rebuildOk l).invoked
      = l.takeWhile rebuildOk ++ (l.dropWhile rebuildOk).take 1 := by
  induction l with
  | nil => rfl
  | cons p rest ih =>
    cases h : rebuildOk p with
    | true => simp [runRebuilds, h, ih, List.takeWhile_cons, List.dropWhile_cons]
    | false => simp [runRebuilds, h, List.takeWhile_cons, List.dropWhile_cons]

theorem runRebuilds_exitCode (rebuildOk : String → Bool) (l : List String) :
    (runRebuilds rebuildOk l).exitCode = if l.all rebuildOk = true then 0 else 1 := by
  induction l with
  | nil => rfl
  | cons p rest ih =>
    cases h : rebuildOk p with
    | true => simp [runRebuilds, h, ih]
    | false => simp [runRebuilds, h]

theorem runRebuilds_invoked_isPre (rebuildOk : String → Bool) (l : List String) :
    (runRebuilds rebuildOk l).invoked <+: l := by
  rw [runRebuilds_invoked_eq]
  refine ⟨(l.dropWhile rebuildOk).drop 1, ?_⟩
  rw [List.append_assoc, List.take_append_drop, List.takeWhile_append_dropWhile]

theorem mem_toRebuild_iff (trusted : List TrustEntry)
    (lockPkgs : List (String × Option String)) (p : String) :
    p ∈ toRebuild trusted (getInstalledPackages (some lockPkgs)) ↔
      ∃ e ∈ lockPkgs, e.1 ≠ "" ∧ matchesTrusted e.1 trusted = true
        ∧ p = stripNodeModules e.1 := by
  simp only [toRebuild, getInstalledPackages, List.mem_map, List.mem_filter]
  aesop

theorem verifyTrustedPackages_parsed_fst (now : Int) (cfg : TrustPolicyDoc) :
    (verifyTrustedPackages now (some (.ok cfg))).1 = true := by
  rw [verifyTrustedPackages]
  split
  · rfl
  · cases cfg.lastReviewed <;> rfl

theorem ite01_eq_zero_iff (b : Bool) : (if b = true then 0 else 1 : Nat) = 0 ↔ b = true := by
  cases b <;> simp

/-- A synthetic lockfile packages mapping: `total` distinct non-root entries of
which the first `withHash` carry an integrity digest. -/
def mkLock (withHash total : Nat) : List (String × Option String) :=
  (List.range total).map (fun i =>
    ("node_modules/p" ++ toString i, if i < withHash then some "sha512-h" else none))

/-! ## Claim theorems -/

/-- C1: an installed package name (the lockfile key with a leading
`node_modules/` removed) matches a trust entry iff it equals the entry's name
or extends the entry's name by `/` and a further path; `foo-bar` does not
match an entry named `foo`, and `@scope/esbuild` does not match `esbuild`
while `esbuild` (also as the key `node_modules/esbuild`) does. -/
theorem matchesTrusted_eq_or_slash_semantics :
    (∀ (trustedList : List TrustEntry) (pkgPath : String),
      matchesTrusted pkgPath trustedList = true ↔
        ∃ t ∈ trustedList,
          stripNodeModules pkgPath = t.name ∨
          ∃ rest : String, stripNodeModules pkgPath = t.name ++ "/" ++ rest)
    ∧ matchesTrusted "foo-bar" [⟨"foo", none⟩] = false
    ∧ matchesTrusted "@scope/esbuild" [⟨"esbuild", none⟩] = false
    ∧ matchesTrusted "esbuild" [⟨"esbuild", none⟩] = true
    ∧ matchesTrusted "node_modules/esbuild" [⟨"esbuild", none⟩] = true := by
  refine ⟨?_, by decide, by decide, by decide, by decide⟩
  intro trustedList pkgPath
  simp only [matchesTrusted, List.any_eq_true, Bool.or_eq_true, beq_iff_eq,
    strStartsWith_iff_append]

/-- C4: if the trust-policy document is absent the script runner exits 1 at
once and invokes no rebuild, whatever the lockfile holds. -/
theorem scriptRunner_policy_absent_exits_one
    (lockPackages : Option (List (String × Option String)))
    (rebuildOk : String → Bool) :
    scriptRunnerMain none lockPackages rebuildOk = ⟨[], 1⟩ := rfl

/-- C10: a parseable lockfile whose packages mapping holds only root
(empty-string key) entries has zero non-root packages, and the integrity check
passes: the `withHash === total` branch (0 = 0) fires before the NaN coverage
rate could matter. -/
theorem verifyIntegrity_root_only_passes (pkgs : List (String × Option String))
    (hroot : ∀ e ∈ pkgs, e.1 = "") :
    totalCount pkgs = 0 ∧ verifyIntegrity (some (.ok pkgs)) = true := by
  have h : nonRootEntries pkgs = [] := by
    rw [nonRootEntries, List.filter_eq_nil_iff]
    intro e he
    simpa using hroot e he
  have ht : totalCount pkgs = 0 := by rw [totalCount, h]; rfl
  have hw : withHashCount pkgs = 0 := by rw [withHashCount, h]; rfl
  refine ⟨ht, ?_⟩
  simp [verifyIntegrity, ht, hw]

/-- Witness for C10 at the singleton root-only lockfile. -/
theorem verifyIntegrity_root_only_passes_witness :
    (∀ e ∈ [(("" : String), (none : Option String))], e.1 = "")
    ∧ (totalCount [("", none)] = 0
       ∧ verifyIntegrity (some (.ok [("", none)])) = true) :=
  ⟨by decide, verifyIntegrity_root_only_passes [("", none)] (by decide)⟩

/-- C6: on a parsed audit result the check fails iff the critical or the high
count is positive; with both zero a positive moderate count passes with the
moderate warning; otherwise it passes silently; the low and info counts never
influence the outcome. -/
theorem runAudit_severity_policy (c h m low info low2 info2 : Option Nat) :
    ((runAudit (.parsed ⟨c, h, m, low, info⟩)).1 = false ↔
      0 < c.getD 0 ∨ 0 < h.getD 0)
    ∧ (c.getD 0 = 0 → h.getD 0 = 0 → 0 < m.getD 0 →
        runAudit (.parsed ⟨c, h, m, low, info⟩) = (true, true))
    ∧ (c.getD 0 = 0 → h.getD 0 = 0 → m.getD 0 = 0 →
        runAudit (.parsed ⟨c, h, m, low, info⟩) = (true, false))
    ∧ runAudit (.parsed ⟨c, h, m, low, info⟩)
        = runAudit (.parsed ⟨c, h, m, low2, info2⟩) := by
  refine ⟨?_, ?_, ?_, rfl⟩
  · rw [runAudit]
    split
    · rename_i hcond
      simp only [Bool.or_eq_true, decide_eq_true_eq] at hcond
      simpa using hcond
    · rename_i hcond
      simp only [Bool.or_eq_true, decide_eq_true_eq, not_or] at hcond
      split <;> simpa using hcond
  · intro hc hh hm
    rw [runAudit]
    rw [if_neg (by simp [hc, hh]), if_pos (by simpa using hm)]
  · intro hc hh hm
    rw [runAudit]
    rw [if_neg (by simp [hc, hh]), if_neg (by simp [hm])]

/-- Witness for C6: one high finding fails whatever the other severities are;
zero critical/high with moderate findings passes with the warning. -/
theorem runAudit_severity_policy_witness :
    (runAudit (.parsed ⟨none, some 1, some 5, some 7, some 9⟩)).1 = false
    ∧ runAudit (.parsed ⟨some 0, none, some 2, none, none⟩) = (true, true) :=
  ⟨(runAudit_severity_policy none (some 1) (some 5) (some 7) (some 9)
      none none).1.mpr (Or.inr (by decide)),
   (runAudit_severity_policy (some 0) none (some 2) none none none none).2.1
      (by decide) (by decide) (by decide)⟩

/-- C7: with .npmrc absent the configuration check passes; with it present the
check passes iff each required key — `ignore-scripts` (script-execution
blocking), `audit-level`, `package-lock`, `strict-ssl` — occurs as a substring
of the text (values and recommended settings never affect the boolean). -/
theorem verifyNpmrc_required_keys_substring :
    (verifyNpmrc none = true)
    ∧ (∀ content : String,
        verifyNpmrc (some content) = true ↔
          (strContains content "ignore-scripts" = true
           ∧ strContains content "audit-level" = true
           ∧ strContains content "package-lock" = true
           ∧ strContains content "strict-ssl" = true))
    ∧ (∀ hay pat : String, strContains hay pat = true ↔ pat.data <:+: hay.data) := by
  refine ⟨rfl, ?_, strContains_iff⟩
  intro content
  have h1 : settingKey "ignore-scripts=true" = "ignore-scripts" := by decide
  have h2 : settingKey "audit-level" = "audit-level" := by decide
  have h3 : settingKey "package-lock=true" = "package-lock" := by decide
  have h4 : settingKey "strict-ssl=true" = "strict-ssl" := by decide
  simp [verifyNpmrc, requiredSettings, h1, h2, h3, h4, List.all_cons,
    Bool.and_eq_true, and_assoc]

/-- C2: with policy and lockfile present and parseable, the selected rebuild
list is exactly the stripped non-root lockfile keys matching a trust entry, in
lockfile order; the invoked rebuilds are a prefix of that list (so never a
package outside it, one at a time in that order), and equal it whenever every
invocation succeeds (a failed invocation aborts the remainder, see C3). -/
theorem scriptRunner_rebuilds_exactly_matching (config : TrustPolicyDoc)
    (lockPkgs : List (String × Option String)) (rebuildOk : String → Bool) :
    ((scriptRunnerMain (some config) (some lockPkgs) rebuildOk).invoked
        <+: toRebuild (loadTrustedPackages config) (getInstalledPackages (some lockPkgs)))
    ∧ ((∀ p ∈ toRebuild (loadTrustedPackages config) (getInstalledPackages (some lockPkgs)),
          rebuildOk p = true) →
        (scriptRunnerMain (some config) (some lockPkgs) rebuildOk).invoked
          = toRebuild (loadTrustedPackages config) (getInstalledPackages (some lockPkgs)))
    ∧ (∀ p, p ∈ toRebuild (loadTrustedPackages config) (getInstalledPackages (some lockPkgs)) ↔
        ∃ e ∈ lockPkgs, e.1 ≠ "" ∧ matchesTrusted e.1 (loadTrustedPackages config) = true
          ∧ p = stripNodeModules e.1) := by
  have hmain : scriptRunnerMain (some config) (some lockPkgs) rebuildOk
      = runRebuilds rebuildOk (toRebuild (loadTrustedPackages config)
          (getInstalledPackages (some lockPkgs))) := rfl
  refine ⟨?_, ?_, mem_toRebuild_iff _ _⟩
  · rw [hmain]
    exact runRebuilds_invoked_isPre _ _
  · intro hall
    have hd : (toRebuild (loadTrustedPackages config)
        (getInstalledPackages (some lockPkgs))).dropWhile rebuildOk = [] :=
      List.dropWhile_eq_nil_iff.mpr hall
    have ht := List.takeWhile_append_dropWhile rebuildOk
      (toRebuild (loadTrustedPackages config) (getInstalledPackages (some lockPkgs)))
    rw [hd, List.append_nil] at ht
    rw [hmain, runRebuilds_invoked_eq, hd, ht]
    simp

/-- Witness for C2: with `esbuild` trusted and installed among others, the one
matching package is rebuilt and nothing else. -/
theorem scriptRunner_rebuilds_exactly_matching_witness :
    (∀ p ∈ toRebuild (loadTrustedPackages ⟨some [⟨"esbuild", none⟩], none⟩)
        (getInstalledPackages (some [("", none), ("node_modules/esbuild", some "sha512-x"),
          ("node_modules/left-pad", none)])),
      (fun _ => true : String → Bool) p = true)
    ∧ (scriptRunnerMain (some ⟨some [⟨"esbuild", none⟩], none⟩)
        (some [("", none), ("node_modules/esbuild", some "sha512-x"),
          ("node_modules/left-pad", none)])
        (fun _ => true)).invoked
      = toRebuild (loadTrustedPackages ⟨some [⟨"esbuild", none⟩], none⟩)
          (getInstalledPackages (some [("", none), ("node_modules/esbuild", some "sha512-x"),
            ("node_modules/left-pad", none)])) :=
  ⟨by decide, (scriptRunner_rebuilds_exactly_matching _ _ _).2.1 (by decide)⟩

/-- C3: if some rebuild invocation fails the runner exits 1 and the invoked
sequence is the succeeding front of the rebuild list plus the single first
failing package — nothing after it; if every listed rebuild succeeds (in
particular when the list is empty) it exits 0. -/
theorem scriptRunner_abort_and_exit (config : TrustPolicyDoc)
    (lockPkgs : List (String × Option String)) (rebuildOk : String → Bool) :
    ((∃ p ∈ toRebuild (loadTrustedPackages config) (getInstalledPackages (some lockPkgs)),
        rebuildOk p = false) →
      (scriptRunnerMain (some config) (some lockPkgs) rebuildOk).exitCode = 1
      ∧ (scriptRunnerMain (some config) (some lockPkgs) rebuildOk).invoked
          = (toRebuild (loadTrustedPackages config)
              (getInstalledPackages (some lockPkgs))).takeWhile rebuildOk
            ++ ((toRebuild (loadTrustedPackages config)
              (getInstalledPackages (some lockPkgs))).dropWhile rebuildOk).take 1)
    ∧ ((∀ p ∈ toRebuild (loadTrustedPackages config) (getInstalledPackages (some lockPkgs)),
          rebuildOk p = true) →
        (scriptRunnerMain (some config) (some lockPkgs) rebuildOk).exitCode = 0) := by
  have hmain : scriptRunnerMain (some config) (some lockPkgs) rebuildOk
      = runRebuilds rebuildOk (toRebuild (loadTrustedPackages config)
          (getInstalledPackages (some lockPkgs))) := rfl
  constructor
  · rintro ⟨p, hp, hfp⟩
    have hall : (toRebuild (loadTrustedPackages config)
        (getInstalledPackages (some lockPkgs))).all rebuildOk = false := by
      rcases hb : (toRebuild (loadTrustedPackages config)
          (getInstalledPackages (some lockPkgs))).all rebuildOk with _ | _
      · rfl
      · have := List.all_eq_true.mp hb p hp
        rw [hfp] at this
        exact absurd this (by simp)
    constructor
    · rw [hmain, runRebuilds_exitCode, hall]
      simp
    · rw [hmain, runRebuilds_invoked_eq]
  · intro hall
    rw [hmain, runRebuilds_exitCode, List.all_eq_true.mpr hall]
    simp

/-- Witness for C3: two trusted installed packages, the first rebuild fails:
exit 1, the second package never invoked. -/
theorem scriptRunner_abort_and_exit_witness :
    (∃ p ∈ toRebuild (loadTrustedPackages ⟨some [⟨"alpha", none⟩, ⟨"beta", none⟩], none⟩)
        (getInstalledPackages (some [("node_modules/alpha", none), ("node_modules/beta", none)])),
      (fun p => p == "beta" : String → Bool) p = false)
    ∧ ((scriptRunnerMain (some ⟨some [⟨"alpha", none⟩, ⟨"beta", none⟩], none⟩)
        (some [("node_modules/alpha", none), ("node_modules/beta", none)])
        (fun p => p == "beta")).exitCode = 1
      ∧ (scriptRunnerMain (some ⟨some [⟨"alpha", none⟩, ⟨"beta", none⟩], none⟩)
          (some [("node_modules/alpha", none), ("node_modules/beta", none)])
          (fun p => p == "beta")).invoked
        = (toRebuild (loadTrustedPackages ⟨some [⟨"alpha", none⟩, ⟨"beta", none⟩], none⟩)
            (getInstalledPackages (some [("node_modules/alpha", none),
              ("node_modules/beta", none)]))).takeWhile (fun p => p == "beta")
          ++ ((toRebuild (loadTrustedPackages ⟨some [⟨"alpha", none⟩, ⟨"beta", none⟩], none⟩)
            (getInstalledPackages (some [("node_modules/alpha", none),
              ("node_modules/beta", none)]))).dropWhile (fun p => p == "beta")).take 1) :=
  ⟨by decide, (scriptRunner_abort_and_exit _ _ _).1 (by decide)⟩

/-- C8: the trust-policy check returns false iff the document is present but
unparseable; absent or parsed documents pass whatever the entries and dates
are; a nonempty parsed document warns exactly when more than 90 days have
elapsed since `lastReviewed`, and the verifier's exit code never depends on
the `lastReviewed` value. -/
theorem verifyTrustedPackages_fail_only_on_parse_error (now : Int)
    (doc : Option (Except Unit TrustPolicyDoc)) :
    ((verifyTrustedPackages now doc).1 = false ↔ doc = some (.error ()))
    ∧ (∀ cfg : TrustPolicyDoc, (verifyTrustedPackages now (some (.ok cfg))).1 = true)
    ∧ (∀ (t : TrustEntry) (ts : List TrustEntry) (reviewed : Int),
        verifyTrustedPackages now (some (.ok ⟨some (t :: ts), some reviewed⟩))
          = (true, decide (now - reviewed > 90)))
    ∧ (∀ (npmrc : Option String)
        (lockfile : Option (Except Unit (List (String × Option String))))
        (audit : AuditExec) (sig : SigExec) (pf : Option (List TrustEntry))
        (r r2 : Option Int),
        verifierMain ⟨npmrc, lockfile, audit, sig, some (.ok ⟨pf, r⟩), now⟩
          = verifierMain ⟨npmrc, lockfile, audit, sig, some (.ok ⟨pf, r2⟩), now⟩) := by
  refine ⟨?_, verifyTrustedPackages_parsed_fst now, fun t ts reviewed => rfl, ?_⟩
  · match doc with
    | none => simp [verifyTrustedPackages]
    | some (.error ()) => simp [verifyTrustedPackages]
    | some (.ok cfg) => simp [verifyTrustedPackages_parsed_fst]
  · intro npmrc lockfile audit sig pf r r2
    simp [verifierMain, allPassed, verifierChecks, verifyTrustedPackages_parsed_fst]

/-- C9: the verifier's exit code is 0 iff all five independently evaluated
checks pass and 1 otherwise; an absent lockfile fails the integrity check
while the four other checks keep their independent outcomes. -/
theorem verifierMain_conjunction_exit (inp : VerifierInput) :
    (verifierMain inp = 0 ↔
      (verifyNpmrc inp.npmrc = true ∧ verifyIntegrity inp.lockfile = true
        ∧ (runAudit inp.audit).1 = true ∧ verifySignatures inp.sig = true
        ∧ (verifyTrustedPackages inp.now inp.trustDoc).1 = true))
    ∧ (verifierMain inp = 0 ∨ verifierMain inp = 1)
    ∧ (∀ (npmrc : Option String) (audit : AuditExec) (sig : SigExec)
        (trustDoc : Option (Except Unit TrustPolicyDoc)) (now : Int),
        verifierChecks ⟨npmrc, none, audit, sig, trustDoc, now⟩
          = ⟨verifyNpmrc npmrc, false, (runAudit audit).1, verifySignatures sig,
             (verifyTrustedPackages now trustDoc).1⟩) := by
  refine ⟨?_, ?_, fun _ _ _ _ _ => rfl⟩
  · rw [verifierMain, ite01_eq_zero_iff, allPassed]
    simp [verifierChecks, Bool.and_eq_true, and_assoc]
  · rw [verifierMain]
    split
    · exact Or.inl rfl
    · exact Or.inr rfl

/-- C5 counterexample: a lockfile with 1250 non-root entries of which 1187
carry a digest has coverage 94.96%, strictly below 95%, yet the integrity
check passes: `toFixed(1)` rounds the rate to 95.0 before the `>= 95` test. -/
theorem verifyIntegrity_rounding_window_cex :
    totalCount (mkLock 1187 1250) = 1250
    ∧ withHashCount (mkLock 1187 1250) = 1187
    ∧ 100 * withHashCount (mkLock 1187 1250) < 95 * totalCount (mkLock 1187 1250)
    ∧ verifyIntegrity (some (.ok (mkLock 1187 1250))) = true := by
  refine ⟨by decide, by decide, by decide, by decide⟩

/-- C5 (amended): on a parseable lockfile with at least one non-root entry the
integrity check passes at 100% digest coverage, passes (with a warning) when
the coverage rounded to one decimal of a percent reaches 95.0 — in exact terms
when 2000·withHash ≥ 1899·total, i.e. coverage ≥ 94.95% — and fails when the
rounded coverage is below 95.0; in particular coverage ≥ 95% always passes and
exactly 94% coverage fails. -/
theorem verifyIntegrity_threshold_amended (pkgs : List (String × Option String))
    (hpos : 0 < totalCount pkgs) :
    (verifyIntegrity (some (.ok pkgs)) = true ↔
      withHashCount pkgs = totalCount pkgs
      ∨ rateTenths (withHashCount pkgs) (totalCount pkgs) ≥ 950)
    ∧ (rateTenths (withHashCount pkgs) (totalCount pkgs) ≥ 950 ↔
        2000 * withHashCount pkgs ≥ 1899 * totalCount pkgs)
    ∧ (100 * withHashCount pkgs ≥ 95 * totalCount pkgs →
        verifyIntegrity (some (.ok pkgs)) = true)
    ∧ (100 * withHashCount pkgs = 94 * totalCount pkgs →
        verifyIntegrity (some (.ok pkgs)) = false) := by
  have hA : verifyIntegrity (some (.ok pkgs)) = true ↔
      (withHashCount pkgs = totalCount pkgs
        ∨ rateTenths (withHashCount pkgs) (totalCount pkgs) ≥ 950) := by
    simp only [verifyIntegrity]
    split
    · rename_i heq
      simp [heq]
    · rename_i hne
      split
      · rename_i hge
        simp [hge]
      · rename_i hlt
        simp [hne, hlt]
  have hB : rateTenths (withHashCount pkgs) (totalCount pkgs) ≥ 950 ↔
      2000 * withHashCount pkgs ≥ 1899 * totalCount pkgs := by
    rw [rateTenths, ge_iff_le, Nat.le_div_iff_mul_le (by omega)]
    omega
  refine ⟨hA, hB, ?_, ?_⟩
  · intro hcov
    exact hA.mpr (Or.inr (hB.mpr (by omega)))
  · intro hcov
    rcases hb : verifyIntegrity (some (.ok pkgs)) with _ | _
    · rfl
    · rcases hA.mp hb with heq | hge
      · omega
      · have := hB.mp hge
        omega

/-- Witness for C5 (amended): at exactly 94% coverage (94 of 100 entries) the
integrity check fails. -/
theorem verifyIntegrity_threshold_amended_witness :
    0 < totalCount (mkLock 94 100)
    ∧ 100 * withHashCount (mkLock 94 100) = 94 * totalCount (mkLock 94 100)
    ∧ verifyIntegrity (some (.ok (mkLock 94 100))) = false :=
  ⟨by decide, by decide,
   (verifyIntegrity_threshold_amended (mkLock 94 100) (by decide)).2.2.2 (by decide)⟩

end SupplyChain
